import Mathlib

/-!
Shallow embedding of the shank-idl type translation core:
`src/shank-idl/src/idl_type.rs` (the `IdlType` enum and the
`TryFrom<RustType> for IdlType` translator) and
`src/shank-idl/src/idl_field.rs` (the `IdlField` record, the
`TryFrom<StructField> for IdlField` deriver and `auto_docs`).

The input descriptor model (`RustType`, `TypeKind`, `Primitive`, `Value`,
`Composite`, `StructField`) lives in the external `shank_macro_impl` crate;
its shape is reconstructed here exactly from the constructors the translator
matches on and from the input contract of the spec.  Rust `Result<T, Error>`
is embedded as `Except String`; `anyhow::bail!` becomes `Except.error` with
the same message text.
-/

/-- `shank_macro_impl::types::Primitive`: the primitive discriminants the
translator matches on. -/
inductive Primitive where
  | u8
  | i8
  | i16
  | u16
  | i32
  | u32
  | i64
  | u64
  | u128
  | i128
  | usize
  | bool
deriving DecidableEq, Repr

/-- `shank_macro_impl::types::Value`: textual value types plus named
(custom) value types carrying their identifier. -/
inductive Value where
  | cstring
  | string
  | str
  | custom (name : String)
deriving DecidableEq, Repr

/-- `shank_macro_impl::types::Composite`: the composite discriminants.
`array` carries the fixed length, `decimal` the precision parameter
(`Decimal<const P: u8, T>`), `custom` an identifier. -/
inductive Composite where
  | vec
  | array (size : Nat)
  | option
  | tuple
  | hashMap
  | bTreeMap
  | hashSet
  | bTreeSet
  | decimal (precision : Nat)
  | custom (name : String)
deriving DecidableEq, Repr

mutual
/-- `shank_macro_impl::types::TypeKind`: the discriminant of a host type
descriptor; composites carry an ordered list of nested descriptors. -/
inductive TypeKind where
  | primitive (p : Primitive)
  | value (v : Value)
  | composite (c : Composite) (inners : List RustType)
  | unit
  | unknown

/-- `shank_macro_impl::types::RustType`, restricted to the single field the
translator reads (`rust_ty.kind`). -/
inductive RustType where
  | mk (kind : TypeKind)
end

/-- Projection matching the Rust field access `rust_ty.kind`. -/
def RustType.kind : RustType → TypeKind
  | .mk k => k

/-- `shank_idl::idl_type::IdlType`: the closed set of IDL type nodes. -/
inductive IdlType where
  | array (elem : IdlType) (size : Nat)
  | bool
  | bytes
  | defined (name : String)
  | i128
  | i16
  | i32
  | i64
  | i8
  | option (elem : IdlType)
  | tuple (elems : List IdlType)
  | publicKey
  | string
  | u128
  | u16
  | u32
  | u64
  | u8
  | vec (elem : IdlType)
  | hashMap (key val : IdlType)
  | bTreeMap (key val : IdlType)
  | hashSet (elem : IdlType)
  | bTreeSet (elem : IdlType)

mutual
/-- `impl TryFrom<RustType> for IdlType` (idl_type.rs, `try_from`):
dispatches on `rust_ty.kind`. -/
def IdlType.tryFrom : RustType → Except String IdlType
  | .mk k => IdlType.tryFromKind k
termination_by structural t => t

/-- The body of `try_from`, matching on the `TypeKind` discriminant and,
for composites, on the composite kind together with the nested list
(the Rust code reads the list through `inners.first()` / `inners.get(1)`). -/
def IdlType.tryFromKind : TypeKind → Except String IdlType
  | .primitive .u8 => .ok .u8
  | .primitive .i8 => .ok .i8
  | .primitive .i16 => .ok .i16
  | .primitive .u16 => .ok .u16
  | .primitive .i32 => .ok .i32
  | .primitive .u32 => .ok .u32
  | .primitive .i64 => .ok .i64
  | .primitive .u64 => .ok .u64
  | .primitive .u128 => .ok .u128
  | .primitive .i128 => .ok .i128
  | .primitive .usize => .ok .u64
  | .primitive .bool => .ok .bool
  | .value .cstring => .ok .string
  | .value .string => .ok .string
  | .value .str => .ok .string
  | .value (.custom name) =>
      if name = "Pubkey" then .ok .publicKey else .ok (.defined name)
  | .composite .vec (inner :: _) => do
      let innerIdl ← IdlType.tryFrom inner
      match innerIdl with
      | .u8 => pure .bytes
      | _ => pure (.vec innerIdl)
  | .composite .vec [] => .error "Rust Vec Composite needs inner type"
  | .composite (.array size) (inner :: _) => do
      let innerIdl ← IdlType.tryFrom inner
      pure (.array innerIdl size)
  | .composite (.array _) [] => .error "Rust Array Composite needs inner type"
  | .composite .option (inner :: _) => do
      let innerIdl ← IdlType.tryFrom inner
      pure (.option innerIdl)
  | .composite .option [] => .error "Rust Option Composite needs inner type"
  | .composite .tuple inners =>
      if inners.length < 2 then
        .error "Rust Tuple Composite needs at least two inner types"
      else do
        let idlTypes ← IdlType.tryFromList inners
        pure (.tuple idlTypes)
  | .composite .hashMap (inner1 :: inner2 :: _) => do
      let inner1Idl ← IdlType.tryFrom inner1
      let inner2Idl ← IdlType.tryFrom inner2
      pure (.hashMap inner1Idl inner2Idl)
  | .composite .hashMap _ => .error "Rust HashMap Composite needs two inner types"
  | .composite .bTreeMap (inner1 :: inner2 :: _) => do
      let inner1Idl ← IdlType.tryFrom inner1
      let inner2Idl ← IdlType.tryFrom inner2
      pure (.bTreeMap inner1Idl inner2Idl)
  | .composite .bTreeMap _ => .error "Rust BTreeMap Composite needs two inner types"
  | .composite .hashSet (inner :: _) => do
      let innerIdl ← IdlType.tryFrom inner
      pure (.hashSet innerIdl)
  | .composite .hashSet [] => .error "Rust HashSet Composite needs one inner type"
  | .composite .bTreeSet (inner :: _) => do
      let innerIdl ← IdlType.tryFrom inner
      pure (.bTreeSet innerIdl)
  | .composite .bTreeSet [] => .error "Rust BTreeSet Composite needs one inner type"
  | .composite (.decimal _) [inner] => IdlType.tryFrom inner
  | .composite (.decimal _) inners =>
      .error ("Decimal composite needs one type parameter, got "
        ++ toString inners.length)
  | .composite (.custom _) _ =>
      .error "Rust Custom Composite IDL type not yet supported"
  | .unit => .error "IDL types cannot be Unit ()"
  | .unknown =>
      .error "Can only convert known types to IDL type. You are using forked Shank."
termination_by structural k => k

/-- The Tuple arm's `inners.into_iter().map(IdlType::try_from).collect()`:
translate each nested descriptor in order, failing on the first error. -/
def IdlType.tryFromList : List RustType → Except String (List IdlType)
  | [] => .ok []
  | t :: ts => do
      let x ← IdlType.tryFrom t
      let xs ← IdlType.tryFromList ts
      pure (x :: xs)
termination_by structural ts => ts
end

/-- Modelled from the spec: the single name-normalization rule of the field
deriver, lower-camel-case conversion of a source identifier (the external
heck crate's `to_mixed_case`, not part of this repository): underscore
separators are dropped, each word after the first is capitalized and the
first word is lower-cased. -/
def toMixedCase (s : String) : String :=
  match (s.splitOn "_").filter (fun w => w ≠ "") with
  | [] => ""
  | w :: ws => w.toLower ++ String.join (ws.map (fun v => v.capitalize))

/-- `shank_macro_impl::parsed_struct::StructField`, restricted to what the
field deriver reads: the identifier, the declared type, the optional type
override (`field.type_override()`) and the attribute markers (already in
their textual form, `Into::<String>`). -/
structure StructField where
  ident : String
  rust_type : RustType
  type_override : Option RustType
  attrs : List String

/-- `shank_idl::idl_field::IdlField`: the derived field record. -/
structure IdlField where
  name : String
  ty : IdlType
  attrs : Option (List String)
  docs : Option (List String)

/-- `shank_idl::idl_field::auto_docs`: one documentation line for a field
whose declared type is the fixed-point decimal composite, nothing otherwise. -/
def auto_docs (rust_ty : RustType) : Option (List String) :=
  match rust_ty.kind with
  | .composite (.decimal p) _ => some ["@amount decimals=" ++ toString p]
  | _ => none

/-- `impl TryFrom<StructField> for IdlField` (idl_field.rs, `try_from`). -/
def IdlField.tryFrom (field : StructField) : Except String IdlField := do
  let docs := auto_docs field.rust_type
  let ty ← match field.type_override with
    | some overrideType => IdlType.tryFrom overrideType
    | none => IdlType.tryFrom field.rust_type
  let attrs := field.attrs
  let attrs := if attrs.isEmpty then none else some attrs
  .ok { name := toMixedCase field.ident, ty := ty, attrs := attrs, docs := docs }

example : IdlType.tryFrom (.mk (.primitive .u16)) = .ok .u16 := by rfl

example : IdlType.tryFrom (.mk (.composite .vec [.mk (.primitive .u8)]))
    = .ok .bytes := by rfl

example : IdlType.tryFrom (.mk (.composite .vec [.mk (.primitive .u16)]))
    = .ok (.vec .u16) := by rfl

/-- Successful list translation preserves length and is the in-order
element-wise translation. -/
theorem tryFromList_ok (l : List RustType) (ts : List IdlType)
    (h : IdlType.tryFromList l = .ok ts) :
    ts.length = l.length ∧
    ∀ i, ∀ hi : i < l.length, ∀ ht : i < ts.length,
      IdlType.tryFrom (l.get ⟨i, hi⟩) = .ok (ts.get ⟨i, ht⟩) := by
  induction l generalizing ts with
  | nil =>
      simp only [IdlType.tryFromList] at h
      cases h
      exact ⟨rfl, fun i hi ht => absurd hi (by simp)⟩
  | cons t rest ih =>
      simp only [IdlType.tryFromList] at h
      cases hx : IdlType.tryFrom t with
      | error e =>
          rw [hx] at h
          simp only [Bind.bind, Except.bind] at h
          cases h
      | ok x =>
          rw [hx] at h
          simp only [Bind.bind, Except.bind] at h
          cases hxs : IdlType.tryFromList rest with
          | error e =>
              rw [hxs] at h
              simp only [Functor.map, Except.map] at h
              cases h
          | ok xs =>
              rw [hxs] at h
              simp only [Functor.map, Except.map, Pure.pure, Except.pure,
                Except.ok.injEq] at h
              subst h
              obtain ⟨hlen, helem⟩ := ih xs hxs
              refine ⟨by simp [hlen], ?_⟩
              intro i hi ht
              cases i with
              | zero => simpa using hx
              | succ j =>
                  simpa using helem j (by simpa using hi) (by simpa using ht)

/-- `auto_docs` emits the annotation line when the declared kind is the
decimal composite. -/
theorem auto_docs_eq_some (rust_ty : RustType) (p : Nat) (is : List RustType)
    (h : rust_ty.kind = .composite (.decimal p) is) :
    auto_docs rust_ty = some ["@amount decimals=" ++ toString p] := by
  simp [auto_docs, h]

/-- `auto_docs` is `none` whenever the declared kind is not the decimal
composite. -/
theorem auto_docs_eq_none (rust_ty : RustType)
    (h : ∀ p is, rust_ty.kind ≠ .composite (.decimal p) is) :
    auto_docs rust_ty = none := by
  cases rust_ty with
  | mk k =>
      cases k with
      | primitive p => rfl
      | value v => rfl
      | unit => rfl
      | unknown => rfl
      | composite c is =>
          cases c
          case decimal p => exact absurd rfl (h p is)
          all_goals rfl

/-- Inversion for a successful field derivation: the record slots in terms
of the source computations. -/
theorem idlField_tryFrom_ok (field : StructField) (r : IdlField)
    (h : IdlField.tryFrom field = .ok r) :
    r.docs = auto_docs field.rust_type ∧
    r.name = toMixedCase field.ident ∧
    (∀ o, field.type_override = some o → IdlType.tryFrom o = .ok r.ty) ∧
    (field.type_override = none →
      IdlType.tryFrom field.rust_type = .ok r.ty) := by
  cases hov : field.type_override with
  | some o =>
      simp only [IdlField.tryFrom, hov] at h
      cases hto : IdlType.tryFrom o with
      | error e =>
          rw [hto] at h
          simp only [Bind.bind, Except.bind] at h
          cases h
      | ok ty =>
          rw [hto] at h
          simp only [Bind.bind, Except.bind, Except.ok.injEq] at h
          subst h
          refine ⟨rfl, rfl, ?_, ?_⟩
          · intro o2 ho2
            cases ho2
            exact hto
          · intro hn
            cases hn
  | none =>
      simp only [IdlField.tryFrom, hov] at h
      cases hto : IdlType.tryFrom field.rust_type with
      | error e =>
          rw [hto] at h
          simp only [Bind.bind, Except.bind] at h
          cases h
      | ok ty =>
          rw [hto] at h
          simp only [Bind.bind, Except.bind, Except.ok.injEq] at h
          subst h
          refine ⟨rfl, rfl, ?_, ?_⟩
          · intro o2 ho2
            cases ho2
          · intro _
            rfl

/-- A failing element makes the whole list translation fail. -/
theorem tryFromList_error_of_mem (l : List RustType) (inner : RustType)
    (hm : inner ∈ l) (e : String) (he : IdlType.tryFrom inner = .error e) :
    ∃ e2, IdlType.tryFromList l = .error e2 := by
  induction l with
  | nil => cases hm
  | cons t rest ih =>
      cases hx : IdlType.tryFrom t with
      | error e0 =>
          exact ⟨e0, by simp only [IdlType.tryFromList]; rw [hx]; rfl⟩
      | ok x =>
          rcases List.mem_cons.mp hm with hEq | hTail
          · subst hEq; rw [hx] at he; cases he
          · obtain ⟨e2, h2⟩ := ih hTail
            refine ⟨e2, ?_⟩
            simp only [IdlType.tryFromList]
            rw [hx, h2]
            rfl

/-- C6: every primitive descriptor translates successfully to the scalar IDL
variant of matching width and signedness, except that the pointer-sized
`usize` primitive always yields the 64-bit unsigned scalar `U64`. -/
theorem primitive_translation_spec :
    IdlType.tryFrom (.mk (.primitive .u8)) = .ok .u8 ∧
    IdlType.tryFrom (.mk (.primitive .i8)) = .ok .i8 ∧
    IdlType.tryFrom (.mk (.primitive .i16)) = .ok .i16 ∧
    IdlType.tryFrom (.mk (.primitive .u16)) = .ok .u16 ∧
    IdlType.tryFrom (.mk (.primitive .i32)) = .ok .i32 ∧
    IdlType.tryFrom (.mk (.primitive .u32)) = .ok .u32 ∧
    IdlType.tryFrom (.mk (.primitive .i64)) = .ok .i64 ∧
    IdlType.tryFrom (.mk (.primitive .u64)) = .ok .u64 ∧
    IdlType.tryFrom (.mk (.primitive .u128)) = .ok .u128 ∧
    IdlType.tryFrom (.mk (.primitive .i128)) = .ok .i128 ∧
    IdlType.tryFrom (.mk (.primitive .usize)) = .ok .u64 ∧
    IdlType.tryFrom (.mk (.primitive .bool)) = .ok .bool :=
  ⟨rfl, rfl, rfl, rfl, rfl, rfl, rfl, rfl, rfl, rfl, rfl, rfl⟩

/-- C9: a fixed-length array of unsigned-8-bit elements with length `size`
translates to `Array(U8, size)`, never to `Bytes`: the byte collapse is
reserved for the dynamically-sized `Vec` container. -/
theorem array_u8_translation_spec (size : Nat) :
    IdlType.tryFrom (.mk (.composite (.array size) [.mk (.primitive .u8)]))
      = .ok (.array .u8 size) ∧
    IdlType.array IdlType.u8 size ≠ IdlType.bytes :=
  ⟨rfl, fun hx => IdlType.noConfusion hx⟩

/-- C2: the fixed-point decimal composite with exactly one nested descriptor
translates to exactly the translation of that nested representation
descriptor (no decimal wrapper, no precision in the IDL node), and any
other arity is a translation error. -/
theorem decimal_transparent_spec (p : Nat) (inners : List RustType) :
    (∀ inner, inners = [inner] →
      IdlType.tryFrom (.mk (.composite (.decimal p) inners))
        = IdlType.tryFrom inner) ∧
    (inners.length ≠ 1 →
      ∃ e, IdlType.tryFrom (.mk (.composite (.decimal p) inners))
        = .error e) := by
  constructor
  · intro inner heq
    subst heq
    rfl
  · intro hlen
    cases inners with
    | nil => exact ⟨_, rfl⟩
    | cons a as =>
        cases as with
        | nil => exact absurd rfl hlen
        | cons b bs => exact ⟨_, rfl⟩

/-- Witness for C2 at `Decimal(precision 6, inner u64)` and at a decimal
with no nested descriptor. -/
theorem decimal_transparent_spec_witness :
    IdlType.tryFrom (.mk (.composite (.decimal 6) [.mk (.primitive .u64)]))
      = IdlType.tryFrom (.mk (.primitive .u64)) ∧
    ∃ e, IdlType.tryFrom (.mk (.composite (.decimal 6) ([] : List RustType)))
      = .error e :=
  ⟨(decimal_transparent_spec 6 [.mk (.primitive .u64)]).1 _ rfl,
   (decimal_transparent_spec 6 []).2 (by decide)⟩

/-- C7: a named value descriptor translates to `PublicKey` exactly for the
case-sensitive identifier `Pubkey`, to `Defined(name)` with the identifier
preserved verbatim otherwise; textual value descriptors yield `String`. -/
theorem value_translation_spec (name : String) :
    (name = "Pubkey" →
      IdlType.tryFrom (.mk (.value (.custom name))) = .ok .publicKey) ∧
    (name ≠ "Pubkey" →
      IdlType.tryFrom (.mk (.value (.custom name))) = .ok (.defined name)) ∧
    IdlType.tryFrom (.mk (.value .cstring)) = .ok .string ∧
    IdlType.tryFrom (.mk (.value .string)) = .ok .string ∧
    IdlType.tryFrom (.mk (.value .str)) = .ok .string := by
  refine ⟨?_, ?_, rfl, rfl, rfl⟩
  · intro h
    simp [IdlType.tryFrom, IdlType.tryFromKind, h]
  · intro h
    simp [IdlType.tryFrom, IdlType.tryFromKind, h]

/-- Witness for C7: the recognized alias, a distinct name, and the
lower-cased alias (case sensitivity). -/
theorem value_translation_spec_witness :
    IdlType.tryFrom (.mk (.value (.custom "Pubkey"))) = .ok .publicKey ∧
    IdlType.tryFrom (.mk (.value (.custom "Vault"))) = .ok (.defined "Vault") ∧
    IdlType.tryFrom (.mk (.value (.custom "pubkey")))
      = .ok (.defined "pubkey") :=
  ⟨(value_translation_spec "Pubkey").1 rfl,
   (value_translation_spec "Vault").2.1 (by decide),
   (value_translation_spec "pubkey").2.1 (by decide)⟩

/-- C1: a `Vec` composite with at least one nested descriptor translates its
first nested descriptor; when that translation is the `U8` scalar the whole
container collapses to `Bytes`, otherwise it becomes `Vec` of the
translation (the decision is on the translated element, so a decimal
transparently wrapping an unsigned-8-bit representation also collapses);
a `Vec` with no nested descriptor is a translation error. -/
theorem vec_translation_spec (inner : RustType) (rest : List RustType)
    (t : IdlType) (h : IdlType.tryFrom inner = .ok t) :
    (t = IdlType.u8 →
      IdlType.tryFrom (.mk (.composite .vec (inner :: rest))) = .ok .bytes) ∧
    (t ≠ IdlType.u8 →
      IdlType.tryFrom (.mk (.composite .vec (inner :: rest)))
        = .ok (.vec t)) ∧
    (∀ p innerRep, IdlType.tryFrom innerRep = .ok IdlType.u8 →
      IdlType.tryFrom (.mk (.composite .vec
        [.mk (.composite (.decimal p) [innerRep])])) = .ok .bytes) ∧
    (∃ e, IdlType.tryFrom (.mk (.composite .vec ([] : List RustType)))
      = .error e) := by
  refine ⟨?_, ?_, ?_, ⟨_, rfl⟩⟩
  · intro ht
    subst ht
    simp only [IdlType.tryFrom, IdlType.tryFromKind]
    rw [h]
    rfl
  · intro hne
    simp only [IdlType.tryFrom, IdlType.tryFromKind]
    rw [h]
    cases t <;> first | exact absurd rfl hne | rfl
  · intro p innerRep hrep
    simp only [IdlType.tryFrom, IdlType.tryFromKind]
    rw [hrep]
    rfl

/-- Witness for C1: `Vec(u8)` collapses to `Bytes`, `Vec(u16)` stays a
`Vec`, and `Vec(Decimal(9, u8))` also collapses to `Bytes`. -/
theorem vec_translation_spec_witness :
    IdlType.tryFrom (.mk (.composite .vec [.mk (.primitive .u8)]))
      = .ok .bytes ∧
    IdlType.tryFrom (.mk (.composite .vec [.mk (.primitive .u16)]))
      = .ok (.vec .u16) ∧
    IdlType.tryFrom (.mk (.composite .vec
      [.mk (.composite (.decimal 9) [.mk (.primitive .u8)])])) = .ok .bytes :=
  ⟨(vec_translation_spec (.mk (.primitive .u8)) [] IdlType.u8 rfl).1 rfl,
   (vec_translation_spec (.mk (.primitive .u16)) [] IdlType.u16 rfl).2.1
     (fun hx => IdlType.noConfusion hx),
   (vec_translation_spec (.mk (.primitive .u8)) [] IdlType.u8 rfl).2.2.1 9
     (.mk (.primitive .u8)) rfl⟩

/-- C5: a tuple composite with fewer than two nested descriptors is a
translation error; with two or more it yields `Tuple` of the in-order
elementwise translations with the same length, and fails whenever any
element translation fails. -/
theorem tuple_translation_spec (inners : List RustType) :
    (inners.length < 2 →
      ∃ e, IdlType.tryFrom (.mk (.composite .tuple inners)) = .error e) ∧
    (2 ≤ inners.length →
      (∀ ts, IdlType.tryFromList inners = .ok ts →
        IdlType.tryFrom (.mk (.composite .tuple inners)) = .ok (.tuple ts) ∧
        ts.length = inners.length ∧
        ∀ i, ∀ hi : i < inners.length, ∀ ht : i < ts.length,
          IdlType.tryFrom (inners.get ⟨i, hi⟩) = .ok (ts.get ⟨i, ht⟩)) ∧
      (∀ inner, inner ∈ inners → ∀ e, IdlType.tryFrom inner = .error e →
        ∃ e2, IdlType.tryFrom (.mk (.composite .tuple inners))
          = .error e2)) := by
  constructor
  · intro hlt
    refine ⟨"Rust Tuple Composite needs at least two inner types", ?_⟩
    simp only [IdlType.tryFrom, IdlType.tryFromKind]
    rw [if_pos hlt]
  · intro hge
    constructor
    · intro ts hts
      have hok := tryFromList_ok inners ts hts
      refine ⟨?_, hok.1, hok.2⟩
      simp only [IdlType.tryFrom, IdlType.tryFromKind]
      rw [if_neg (Nat.not_lt.mpr hge), hts]
      rfl
    · intro inner hm e he
      obtain ⟨e2, h2⟩ := tryFromList_error_of_mem inners inner hm e he
      refine ⟨e2, ?_⟩
      simp only [IdlType.tryFrom, IdlType.tryFromKind]
      rw [if_neg (Nat.not_lt.mpr hge), h2]
      rfl

/-- Witness for C5: `(bool, String)` yields `Tuple([Bool, String])` and a
one-element tuple is rejected. -/
theorem tuple_translation_spec_witness :
    IdlType.tryFrom (.mk (.composite .tuple
      [.mk (.primitive .bool), .mk (.value .string)]))
      = .ok (.tuple [.bool, .string]) ∧
    (∃ e, IdlType.tryFrom (.mk (.composite .tuple [.mk (.primitive .bool)]))
      = .error e) :=
  ⟨((tuple_translation_spec
      [RustType.mk (.primitive .bool), RustType.mk (.value .string)]).2
      (by decide)).1 [IdlType.bool, IdlType.string] rfl |>.1,
   (tuple_translation_spec [RustType.mk (.primitive .bool)]).1 (by decide)⟩

/-- C8 counterexample: an optional composite with two nested descriptors
does not fail; the translator reads only the first nested descriptor and
succeeds, refuting the "fails unless exactly one" arity condition. -/
theorem option_arity_counterexample :
    [RustType.mk (.primitive .u8), RustType.mk (.primitive .u16)].length
      = 2 ∧
    IdlType.tryFrom (.mk (.composite .option
      [.mk (.primitive .u8), .mk (.primitive .u16)]))
      = .ok (.option .u8) :=
  ⟨rfl, rfl⟩

/-- C8 (amended): the optional composite fails only when it has no nested
descriptor; with one or more it translates the first (ignoring extras) into
`Option`. The map composites fail only when they have fewer than two nested
descriptors; with two or more they translate the first two (ignoring
extras) into the matching `HashMap`/`BTreeMap` variant, and the
unordered/ordered distinction is preserved as distinct output variants. -/
theorem option_map_translation_spec (inner1 inner2 : RustType)
    (rest : List RustType) (t1 t2 : IdlType)
    (h1 : IdlType.tryFrom inner1 = .ok t1)
    (h2 : IdlType.tryFrom inner2 = .ok t2) :
    IdlType.tryFrom (.mk (.composite .option (inner1 :: rest)))
      = .ok (.option t1) ∧
    IdlType.tryFrom (.mk (.composite .hashMap (inner1 :: inner2 :: rest)))
      = .ok (.hashMap t1 t2) ∧
    IdlType.tryFrom (.mk (.composite .bTreeMap (inner1 :: inner2 :: rest)))
      = .ok (.bTreeMap t1 t2) ∧
    (∃ e, IdlType.tryFrom (.mk (.composite .option ([] : List RustType)))
      = .error e) ∧
    (∃ e, IdlType.tryFrom (.mk (.composite .hashMap [inner1]))
      = .error e) ∧
    (∃ e, IdlType.tryFrom (.mk (.composite .hashMap ([] : List RustType)))
      = .error e) ∧
    (∃ e, IdlType.tryFrom (.mk (.composite .bTreeMap [inner1]))
      = .error e) ∧
    (∃ e, IdlType.tryFrom (.mk (.composite .bTreeMap ([] : List RustType)))
      = .error e) ∧
    IdlType.hashMap t1 t2 ≠ IdlType.bTreeMap t1 t2 := by
  refine ⟨?_, ?_, ?_, ⟨_, rfl⟩, ⟨_, rfl⟩, ⟨_, rfl⟩, ⟨_, rfl⟩, ⟨_, rfl⟩,
    fun hx => IdlType.noConfusion hx⟩
  · simp only [IdlType.tryFrom, IdlType.tryFromKind]
    rw [h1]
    rfl
  · simp only [IdlType.tryFrom, IdlType.tryFromKind]
    rw [h1, h2]
    rfl
  · simp only [IdlType.tryFrom, IdlType.tryFromKind]
    rw [h1, h2]
    rfl

/-- Witness for the amended C8 at concrete inner types. -/
theorem option_map_translation_spec_witness :
    IdlType.tryFrom (.mk (.composite .option [.mk (.primitive .u8)]))
      = .ok (.option .u8) ∧
    IdlType.tryFrom (.mk (.composite .hashMap
      [.mk (.primitive .u8), .mk (.primitive .u16)]))
      = .ok (.hashMap .u8 .u16) ∧
    IdlType.tryFrom (.mk (.composite .bTreeMap
      [.mk (.primitive .u8), .mk (.primitive .u16)]))
      = .ok (.bTreeMap .u8 .u16) :=
  have h := option_map_translation_spec (.mk (.primitive .u8))
    (.mk (.primitive .u16)) [] IdlType.u8 IdlType.u16 rfl rfl
  ⟨h.1, h.2.1, h.2.2.1⟩

/-- C3: when a field carries an explicit type override, the emitted type is
the translation of the override while the docs slot is still computed from
the original declared type: a declared decimal keeps its documentation line
whatever the override is, and a declared non-decimal gets no docs even if
the override is a decimal. -/
theorem override_translation_spec (field : StructField) (o : RustType)
    (ho : field.type_override = some o) (r : IdlField)
    (hr : IdlField.tryFrom field = .ok r) :
    IdlType.tryFrom o = .ok r.ty ∧
    r.docs = auto_docs field.rust_type ∧
    (∀ p is, field.rust_type.kind = .composite (.decimal p) is →
      r.docs = some ["@amount decimals=" ++ toString p]) ∧
    ((∀ p is, field.rust_type.kind ≠ .composite (.decimal p) is) →
      r.docs = none) := by
  obtain ⟨hdocs, _, hov, _⟩ := idlField_tryFrom_ok field r hr
  refine ⟨hov o ho, hdocs, ?_, ?_⟩
  · intro p is hk
    rw [hdocs]
    exact auto_docs_eq_some field.rust_type p is hk
  · intro hnd
    rw [hdocs]
    exact auto_docs_eq_none field.rust_type hnd

/-- Witness for C3: a field declared `Decimal(6, u64)` but overridden to
`u32` gets type `U32` and still gets the decimal documentation line. -/
theorem override_translation_spec_witness :
    IdlType.tryFrom (.mk (.primitive .u32))
      = .ok ({ name := toMixedCase "token_amount", ty := IdlType.u32,
               attrs := none,
               docs := some ["@amount decimals=" ++ toString 6] }
               : IdlField).ty ∧
    ({ name := toMixedCase "token_amount", ty := IdlType.u32, attrs := none,
       docs := some ["@amount decimals=" ++ toString 6] } : IdlField).docs
      = some ["@amount decimals=" ++ toString 6] :=
  have h := override_translation_spec
    { ident := "token_amount",
      rust_type := .mk (.composite (.decimal 6) [.mk (.primitive .u64)]),
      type_override := some (.mk (.primitive .u32)),
      attrs := [] }
    (.mk (.primitive .u32)) rfl
    { name := toMixedCase "token_amount", ty := IdlType.u32, attrs := none,
      docs := some ["@amount decimals=" ++ toString 6] } rfl
  ⟨h.1, h.2.2.1 6 [.mk (.primitive .u64)] rfl⟩

/-- C4: `auto_docs` yields exactly the one line `@amount decimals=p` when
the declared kind is the decimal composite with precision `p`, and `none`
(absent, not an empty list) otherwise; the derived record's docs slot is
always `auto_docs` of the declared type. -/
theorem decimal_docs_spec (rust_ty : RustType) :
    (∀ p is, rust_ty.kind = .composite (.decimal p) is →
      auto_docs rust_ty = some ["@amount decimals=" ++ toString p]) ∧
    ((∀ p is, rust_ty.kind ≠ .composite (.decimal p) is) →
      auto_docs rust_ty = none) ∧
    (∀ field : StructField, ∀ r : IdlField, IdlField.tryFrom field = .ok r →
      r.docs = auto_docs field.rust_type) :=
  ⟨fun p is hk => auto_docs_eq_some rust_ty p is hk,
   fun hnd => auto_docs_eq_none rust_ty hnd,
   fun field r hr => (idlField_tryFrom_ok field r hr).1⟩

/-- Witness for C4: a `Decimal(6, u64)` declared type gets the literal line
and a `u8` declared type gets no docs. -/
theorem decimal_docs_spec_witness :
    auto_docs (.mk (.composite (.decimal 6) [.mk (.primitive .u64)]))
      = some ["@amount decimals=6"] ∧
    auto_docs (.mk (.primitive .u8)) = none :=
  ⟨(decimal_docs_spec
      (.mk (.composite (.decimal 6) [.mk (.primitive .u64)]))).1 6
      [.mk (.primitive .u64)] rfl,
   (decimal_docs_spec (.mk (.primitive .u8))).2.1
      (fun p is hx => by cases hx)⟩

/-- C10: the automatic decimal documentation rule inspects only the
outermost kind of the declared type: a field whose declared type is any
non-decimal composite (for example an `Option` whose element is a decimal)
gets no docs, even though the translation still transparently unwraps the
nested decimal, so the precision is dropped undocumented. -/
theorem docs_outermost_only_spec (field : StructField) (c : Composite)
    (inners : List RustType)
    (hk : field.rust_type.kind = .composite c inners)
    (hc : ∀ q, c ≠ Composite.decimal q) :
    auto_docs field.rust_type = none ∧
    (∀ r : IdlField, IdlField.tryFrom field = .ok r → r.docs = none) ∧
    (∀ p inner t, IdlType.tryFrom inner = .ok t →
      IdlType.tryFrom (.mk (.composite .option
        [.mk (.composite (.decimal p) [inner])])) = .ok (.option t)) := by
  have hnone : auto_docs field.rust_type = none := by
    apply auto_docs_eq_none
    intro p is hk2
    rw [hk] at hk2
    injection hk2 with hcEq _
    exact absurd hcEq (hc p)
  refine ⟨hnone, ?_, ?_⟩
  · intro r hr
    rw [(idlField_tryFrom_ok field r hr).1]
    exact hnone
  · intro p inner t ht
    simp only [IdlType.tryFrom, IdlType.tryFromKind]
    rw [ht]
    rfl

/-- Witness for C10: a field declared `Option(Decimal(4, u16))` has no docs
while its type still translates to `Option(U16)`. -/
theorem docs_outermost_only_spec_witness :
    auto_docs (.mk (.composite .option
      [.mk (.composite (.decimal 4) [.mk (.primitive .u16)])])) = none ∧
    IdlType.tryFrom (.mk (.composite .option
      [.mk (.composite (.decimal 4) [.mk (.primitive .u16)])]))
      = .ok (.option .u16) :=
  have h := docs_outermost_only_spec
    { ident := "x",
      rust_type := .mk (.composite .option
        [.mk (.composite (.decimal 4) [.mk (.primitive .u16)])]),
      type_override := none, attrs := [] }
    Composite.option
    [.mk (.composite (.decimal 4) [.mk (.primitive .u16)])]
    rfl (fun _ hq => Composite.noConfusion hq)
  ⟨h.1, h.2.2 4 (.mk (.primitive .u16)) IdlType.u16 rfl⟩
